import Mathlib

/-
  Verification development for the CS525 paged-file subsystem:
  a Storage Manager (Assign1/storage_mgr.c) exposing a file as a sequence
  of fixed-size pages, and a Buffer Manager (buffer_mgr.c) caching pages in
  frames with FIFO/LRU replacement.

  The C code is shallowly embedded: pages are byte lists, the on-disk file is
  a list of pages, machine ints are Int/Nat, and the fallible C I/O calls
  (fopen/calloc/fwrite/fread/fseek) are modelled by explicit environment
  failure flags carried in the file handle.  Each Lean definition mirrors one
  C function and keeps its name.
-/

namespace CS525

/-- Return codes from dberror.h used by the storage and buffer managers. -/
inductive RC where
  | RC_OK
  | RC_FILE_NOT_FOUND
  | RC_FILE_HANDLE_NOT_INIT
  | RC_READ_NON_EXISTING_PAGE
  | RC_WRITE_FAILED
deriving DecidableEq, Repr

/-- PAGE_SIZE from dberror.h (compile-time constant; the spec gives 4096). -/
def PAGE_SIZE : Nat := 4096

/-- A page is a fixed-size block of PAGE_SIZE bytes; bytes as naturals. -/
abbrev Page : Type := List Nat

/-- A zero-filled page, as produced by calloc(PAGE_SIZE, 1). -/
def zeroPage : Page := List.replicate PAGE_SIZE 0

/-- SM_FileHandle together with its FileContext (storage_mgr.c): total page
count, advisory cursor, and the on-disk contents.  The two Bool flags model
the environment: writeFails makes every fwrite/fseek-for-write fail short,
readFails makes every fread fail short. -/
structure SMFileHandle where
  totalNumPages : Nat
  curPagePos : Int
  pages : List Page
  writeFails : Bool
  readFails : Bool
deriving DecidableEq, Repr

/-- createPageFile (storage_mgr.c lines 78-107): open the file in wb mode,
calloc a zero buffer, fwrite one page, close.  The three Bool arguments model
whether fopen, calloc and the full-page fwrite succeed; any failure yields
RC_WRITE_FAILED.  On success the file consists of exactly one zero page. -/
def createPageFile (openOk allocOk writeOk : Bool) : RC × Option (List Page) :=
  if openOk = false then (RC.RC_WRITE_FAILED, none)
  else if allocOk = false then (RC.RC_WRITE_FAILED, none)
  else if writeOk = false then (RC.RC_WRITE_FAILED, none)
  else (RC.RC_OK, some [zeroPage])

/-- appendEmptyBlock (storage_mgr.c lines 472-504): seek to end, write one
zero page, bump the page count, cursor to the new last page.  An I/O failure
(fseek or short fwrite, modelled by writeFails) yields RC_WRITE_FAILED with
the file unchanged. -/
def appendEmptyBlock (fh : SMFileHandle) : RC × SMFileHandle :=
  if fh.writeFails then (RC.RC_WRITE_FAILED, fh)
  else (RC.RC_OK,
    { fh with pages := fh.pages ++ [zeroPage],
              totalNumPages := fh.totalNumPages + 1,
              curPagePos := (fh.totalNumPages : Int) })

/-- The while loop of ensureCapacity: each successful appendEmptyBlock grows
the file by exactly one page, so the loop runs (n - totalNumPages) times;
that count is the structural fuel here. -/
def ensureLoop : SMFileHandle → Nat → RC × SMFileHandle
  | fh, 0 => (RC.RC_OK, fh)
  | fh, Nat.succ k =>
    match appendEmptyBlock fh with
    | (RC.RC_OK, fh2) => ensureLoop fh2 k
    | (rc, fh2) => (rc, fh2)

/-- ensureCapacity (storage_mgr.c lines 517-533): append zero pages until the
file has at least numberOfPages pages; propagate any append failure. -/
def ensureCapacity (numberOfPages : Int) (fh : SMFileHandle) : RC × SMFileHandle :=
  if numberOfPages < 0 then (RC.RC_WRITE_FAILED, fh)
  else ensureLoop fh (numberOfPages.toNat - fh.totalNumPages)

/-- readBlock (storage_mgr.c lines 288-311): bounds-check pageNum, seek, fread
one page into the caller's buffer, update the cursor.  Returns the (possibly
unchanged) buffer alongside the handle; on failure the buffer is unchanged. -/
def readBlock (pageNum : Int) (fh : SMFileHandle) (memPage : Page) :
    RC × SMFileHandle × Page :=
  if pageNum < 0 ∨ pageNum ≥ (fh.totalNumPages : Int) then
    (RC.RC_READ_NON_EXISTING_PAGE, fh, memPage)
  else if fh.readFails then (RC.RC_READ_NON_EXISTING_PAGE, fh, memPage)
  else (RC.RC_OK, { fh with curPagePos := pageNum },
        fh.pages.getD pageNum.toNat zeroPage)

/-- writeBlock (storage_mgr.c lines 412-444): reject negative pageNum, grow
the file via ensureCapacity when pageNum is past the end, seek, fwrite one
page, update the cursor.  Write-side I/O failure yields RC_WRITE_FAILED. -/
def writeBlock (pageNum : Int) (fh : SMFileHandle) (memPage : Page) :
    RC × SMFileHandle :=
  if pageNum < 0 then (RC.RC_WRITE_FAILED, fh)
  else
    match (if pageNum ≥ (fh.totalNumPages : Int)
           then ensureCapacity (pageNum + 1) fh
           else (RC.RC_OK, fh)) with
    | (RC.RC_OK, fh1) =>
      if fh1.writeFails then (RC.RC_WRITE_FAILED, fh1)
      else (RC.RC_OK, { fh1 with pages := fh1.pages.set pageNum.toNat memPage,
                                 curPagePos := pageNum })
    | (_, fh1) => (RC.RC_WRITE_FAILED, fh1)

/-- NO_PAGE from buffer_mgr.h: page id of an empty frame. -/
def NO_PAGE : Int := -1

/-- One buffer-pool slot (struct Frame in buffer_mgr.c).  The intrusive LRU
prev/next pointers are represented by the pool-level lru index list below. -/
structure Frame where
  pageId : Int
  data : Page
  isDirty : Bool
  pinCount : Nat
deriving DecidableEq, Repr

instance : Inhabited Frame :=
  ⟨{ pageId := NO_PAGE, data := [], isDirty := false, pinCount := 0 }⟩

/-- ReplacementStrategy from buffer_mgr.h. -/
inductive ReplacementStrategy where
  | RS_FIFO
  | RS_LRU
  | RS_CLOCK
  | RS_LFU
  | RS_LRU_K
deriving DecidableEq, Repr

/-- PoolMetadata (buffer_mgr.c lines 24-36).  The ring buffer fifoQ with
fifoHead/fifoCount is represented as the list of queued frame indices in
dequeue order (head first); the intrusive doubly linked LRU list is the list
of frame indices with head = most recently used. -/
structure PoolMetadata where
  fh : SMFileHandle
  frames : List Frame
  capacity : Nat
  strat : ReplacementStrategy
  readIOCount : Nat
  writeIOCount : Nat
  fifoQ : List Nat
  lru : List Nat
deriving DecidableEq, Repr

/-- moveToLRUHead (buffer_mgr.c lines 39-49): no-op when the frame is already
at the head, otherwise unlink it and relink at the head. -/
def moveToLRUHead (lru : List Nat) (idx : Nat) : List Nat :=
  if lru.head? = some idx then lru
  else idx :: lru.filter (fun j => j != idx)

/-- The FIFO arm of selectVictim (buffer_mgr.c lines 53-62): pop entries off
the queue head until an unpinned frame is found; popped entries (including
pinned ones that are skipped) are not re-enqueued.  Returns the victim index
(if any) and the queue as the loop leaves it. -/
def fifoScan (frames : List Frame) : List Nat → Option Nat × List Nat
  | [] => (none, [])
  | idx :: rest =>
    if (frames.getD idx default).pinCount = 0 then (some idx, rest)
    else fifoScan frames rest

/-- The LRU arm of selectVictim (buffer_mgr.c lines 63-67): walk from the
tail toward the head and return the first frame with pin count zero. -/
def lruScan (frames : List Frame) (lru : List Nat) : Option Nat :=
  lru.reverse.find? (fun idx => (frames.getD idx default).pinCount == 0)

/-- selectVictim (buffer_mgr.c lines 52-68): FIFO pops the queue
destructively; every other strategy scans the LRU list without mutation. -/
def selectVictim (md : PoolMetadata) : Option Nat × PoolMetadata :=
  if md.strat = ReplacementStrategy.RS_FIFO then
    match fifoScan md.frames md.fifoQ with
    | (res, q) => (res, { md with fifoQ := q })
  else (lruScan md.frames md.lru, md)

/-- enqueueFIFO (buffer_mgr.c lines 71-75): append a frame index at the tail
of the FIFO queue. -/
def enqueueFIFO (md : PoolMetadata) (idx : Nat) : PoolMetadata :=
  { md with fifoQ := md.fifoQ ++ [idx] }

/-- initBufferPool (buffer_mgr.c lines 78-110) after a successful
openPageFile: numPages empty frames (pageId NO_PAGE, clean, unpinned; the
malloc'd payloads are indeterminate in C and modelled as zeros, and are never
observed before a load), zero counters, empty replacement structures. -/
def initBufferPool (fh : SMFileHandle) (numPages : Nat)
    (strat : ReplacementStrategy) : PoolMetadata :=
  { fh := fh
    frames := List.replicate numPages
      { pageId := NO_PAGE, data := zeroPage, isDirty := false, pinCount := 0 }
    capacity := numPages
    strat := strat
    readIOCount := 0
    writeIOCount := 0
    fifoQ := []
    lru := [] }

/-- Index of the first frame satisfying the predicate, as found by the
ascending for loops over md->frames in buffer_mgr.c. -/
def findFrameIdx (p : Frame → Bool) : List Frame → Option Nat
  | [] => none
  | f :: rest => if p f then some 0 else (findFrameIdx p rest).map (fun i => i + 1)

/-- Steps 4-6 of the pinPage miss path (buffer_mgr.c lines 182-193): grow the
file if pid is past the end (return code ignored by the source), readBlock
the page into the slot (return code ignored by the source), increment readIOCount
unconditionally, install pid with a pin count of 1, and insert the slot into
the replacement structure. -/
def loadIntoSlot (md : PoolMetadata) (slot : Nat) (pid : Int) : RC × PoolMetadata :=
  let md1 :=
    if pid ≥ (md.fh.totalNumPages : Int)
    then { md with fh := (ensureCapacity (pid + 1) md.fh).2 }
    else md
  let r := readBlock pid md1.fh ((md1.frames.getD slot default).data)
  let md2 := { md1 with fh := r.2.1 }
  let md3 := { md2 with
    readIOCount := md2.readIOCount + 1,
    frames := md2.frames.set slot
      { pageId := pid, data := r.2.2, isDirty := false, pinCount := 1 } }
  let md4 :=
    if md3.strat = ReplacementStrategy.RS_FIFO then enqueueFIFO md3 slot
    else { md3 with lru := moveToLRUHead md3.lru slot }
  (RC.RC_OK, md4)

/-- pinPage (buffer_mgr.c lines 151-194): reject negative pids; on a hit bump
the pin count and (LRU/LRU-K) touch the frame; otherwise use the first free
frame or a victim, writing back a dirty victim first (the writeBlock return
code is ignored by the source and writeIOCount is incremented unconditionally). -/
def pinPage (md : PoolMetadata) (pid : Int) : RC × PoolMetadata :=
  if pid < 0 then (RC.RC_READ_NON_EXISTING_PAGE, md)
  else
    match findFrameIdx (fun f => f.pageId == pid) md.frames with
    | some i =>
      let f := md.frames.getD i default
      let md1 := { md with frames := md.frames.set i { f with pinCount := f.pinCount + 1 } }
      let md2 :=
        if md1.strat = ReplacementStrategy.RS_LRU ∨
           md1.strat = ReplacementStrategy.RS_LRU_K
        then { md1 with lru := moveToLRUHead md1.lru i }
        else md1
      (RC.RC_OK, md2)
    | none =>
      match findFrameIdx (fun f => f.pageId == NO_PAGE) md.frames with
      | some free => loadIntoSlot md free pid
      | none =>
        match selectVictim md with
        | (none, md1) => (RC.RC_READ_NON_EXISTING_PAGE, md1)
        | (some v, md1) =>
          let vf := md1.frames.getD v default
          let md2 :=
            if vf.isDirty then
              { md1 with fh := (writeBlock vf.pageId md1.fh vf.data).2,
                         writeIOCount := md1.writeIOCount + 1 }
            else md1
          loadIntoSlot md2 v pid

/-- unpinPage (buffer_mgr.c lines 197-211): find the resident frame by the
handle's page number; decrement a positive pin count, otherwise fail. -/
def unpinPage (md : PoolMetadata) (pageNum : Int) : RC × PoolMetadata :=
  match findFrameIdx (fun f => f.pageId == pageNum) md.frames with
  | some i =>
    let f := md.frames.getD i default
    if 0 < f.pinCount then
      (RC.RC_OK, { md with frames := md.frames.set i { f with pinCount := f.pinCount - 1 } })
    else (RC.RC_READ_NON_EXISTING_PAGE, md)
  | none => (RC.RC_READ_NON_EXISTING_PAGE, md)

/-- markDirty (buffer_mgr.c lines 214-226): find the resident frame by the
handle's page number and set its dirty flag. -/
def markDirty (md : PoolMetadata) (pageNum : Int) : RC × PoolMetadata :=
  match findFrameIdx (fun f => f.pageId == pageNum) md.frames with
  | some i =>
    let f := md.frames.getD i default
    (RC.RC_OK, { md with frames := md.frames.set i { f with isDirty := true } })
  | none => (RC.RC_READ_NON_EXISTING_PAGE, md)

/-- forcePage (buffer_mgr.c lines 229-241): find the resident frame, write it
to disk (return code ignored by the source), increment writeIOCount, clear dirty. -/
def forcePage (md : PoolMetadata) (pageNum : Int) : RC × PoolMetadata :=
  match findFrameIdx (fun f => f.pageId == pageNum) md.frames with
  | some i =>
    let f := md.frames.getD i default
    (RC.RC_OK, { md with fh := (writeBlock pageNum md.fh f.data).2,
                         writeIOCount := md.writeIOCount + 1,
                         frames := md.frames.set i { f with isDirty := false } })
  | none => (RC.RC_READ_NON_EXISTING_PAGE, md)

/-- The flush condition of forceFlushPool and shutdownBufferPool: resident,
dirty and unpinned (buffer_mgr.c line 141). -/
def flushCond (f : Frame) : Bool :=
  f.pageId != NO_PAGE && f.isDirty && f.pinCount == 0

/-- The for loop of forceFlushPool (buffer_mgr.c lines 139-146) over the
frame array in index order, threading the file handle and writeIOCount counter:
each frame meeting flushCond is written back (return code ignored by the
source), counted, and marked clean. -/
def flushFrames (fh : SMFileHandle) (writeIOCount : Nat) :
    List Frame → List Frame × SMFileHandle × Nat
  | [] => ([], fh, writeIOCount)
  | f :: rest =>
    if flushCond f then
      let fh1 := (writeBlock f.pageId fh f.data).2
      let r := flushFrames fh1 (writeIOCount + 1) rest
      ({ f with isDirty := false } :: r.1, r.2.1, r.2.2)
    else
      let r := flushFrames fh writeIOCount rest
      (f :: r.1, r.2.1, r.2.2)

/-- forceFlushPool (buffer_mgr.c lines 136-148): write back every resident
dirty unpinned frame, clear its dirty flag, count the writes; returns RC_OK. -/
def forceFlushPool (md : PoolMetadata) : RC × PoolMetadata :=
  let r := flushFrames md.fh md.writeIOCount md.frames
  (RC.RC_OK, { md with frames := r.1, fh := r.2.1, writeIOCount := r.2.2 })

/-- One client-visible buffer-pool operation.  Handle-consuming calls are
identified by the handle's page number, which is all the C code reads from
the handle. -/
inductive Op where
  | pin (pid : Int)
  | unpin (pageNum : Int)
  | markDirtyOp (pageNum : Int)
  | forcePageOp (pageNum : Int)
  | forceFlushOp
deriving DecidableEq, Repr

/-- Dispatch one operation to the corresponding buffer-manager function. -/
def stepOp (md : PoolMetadata) : Op → RC × PoolMetadata
  | Op.pin pid => pinPage md pid
  | Op.unpin p => unpinPage md p
  | Op.markDirtyOp p => markDirty md p
  | Op.forcePageOp p => forcePage md p
  | Op.forceFlushOp => forceFlushPool md

/-- Run a sequence of operations, keeping the final pool state. -/
def runOps (md : PoolMetadata) : List Op → PoolMetadata
  | [] => md
  | op :: rest => runOps (stepOp md op).2 rest

/-- Run a sequence of operations, also recording every return code. -/
def runTrace (md : PoolMetadata) : List Op → List RC × PoolMetadata
  | [] => ([], md)
  | op :: rest =>
    let r := stepOp md op
    let t := runTrace r.2 rest
    (r.1 :: t.1, t.2)

end CS525

namespace CS525

/-! Concrete states used by closed theorems and witnesses. -/

/-- A two-page backing file with no injected I/O faults. -/
def fhA : SMFileHandle :=
  { totalNumPages := 4, curPagePos := 0,
    pages := List.replicate 4 zeroPage, writeFails := false, readFails := false }

/-- A two-page backing file on which every fwrite fails. -/
def fhWriteFail : SMFileHandle :=
  { totalNumPages := 2, curPagePos := 0,
    pages := [zeroPage, zeroPage], writeFails := true, readFails := false }

/-- A one-page backing file on which every fread fails. -/
def fhReadFail : SMFileHandle :=
  { totalNumPages := 1, curPagePos := 0,
    pages := [zeroPage], writeFails := false, readFails := true }

/-- FIFO pool of capacity 1 whose only frame holds page 0, dirty, unpinned. -/
def mdDirtyVictim : PoolMetadata :=
  { fh := fhWriteFail
    frames := [{ pageId := 0, data := zeroPage, isDirty := true, pinCount := 0 }]
    capacity := 1, strat := ReplacementStrategy.RS_FIFO
    readIOCount := 0, writeIOCount := 0, fifoQ := [0], lru := [] }

/-- FIFO pool of capacity 1 with one empty frame over the failing-read file. -/
def mdEmptyOne : PoolMetadata :=
  { fh := fhReadFail
    frames := [{ pageId := NO_PAGE, data := zeroPage, isDirty := false, pinCount := 0 }]
    capacity := 1, strat := ReplacementStrategy.RS_FIFO
    readIOCount := 0, writeIOCount := 0, fifoQ := [], lru := [] }

/-- FIFO pool of capacity 2 with pages 0 and 1 resident and pinned, queue [0, 1]. -/
def mdAllPinned : PoolMetadata :=
  { fh := fhA
    frames := [{ pageId := 0, data := zeroPage, isDirty := false, pinCount := 1 },
               { pageId := 1, data := zeroPage, isDirty := false, pinCount := 1 }]
    capacity := 2, strat := ReplacementStrategy.RS_FIFO
    readIOCount := 0, writeIOCount := 0, fifoQ := [0, 1], lru := [] }

/-- C9: for every pool state and every negative page id, pinPage returns
RC_READ_NON_EXISTING_PAGE and leaves the pool state completely unchanged
(buffer_mgr.c line 153 rejects pid < 0 before reading any frame). -/
theorem pin_negative_pid_rejected (md : PoolMetadata) (pid : Int) (h : pid < 0) :
    pinPage md pid = (RC.RC_READ_NON_EXISTING_PAGE, md) := by
  simp [pinPage, h]

theorem pin_negative_pid_rejected_witness :
    (-3 : Int) < 0 ∧ pinPage mdAllPinned (-3) = (RC.RC_READ_NON_EXISTING_PAGE, mdAllPinned) :=
  ⟨by decide, pin_negative_pid_rejected mdAllPinned (-3) (by decide)⟩

/-- C1, evaluated at the failing inputs: the write-back of the dirty victim
fails (writeBlock returns RC_WRITE_FAILED) yet pinPage returns RC_OK and
increments writeIOCount; likewise the page load fails (readBlock returns
RC_READ_NON_EXISTING_PAGE) yet pinPage returns RC_OK and increments readIOCount.
The source ignores both return codes (buffer_mgr.c lines 178, 183), so the
claimed error propagation and success-only counting do not hold. -/
theorem pin_swallows_io_errors :
    (writeBlock 0 fhWriteFail zeroPage).1 = RC.RC_WRITE_FAILED
    ∧ (pinPage mdDirtyVictim 1).1 = RC.RC_OK
    ∧ (pinPage mdDirtyVictim 1).2.writeIOCount = 1
    ∧ (readBlock 0 fhReadFail zeroPage).1 = RC.RC_READ_NON_EXISTING_PAGE
    ∧ (pinPage mdEmptyOne 0).1 = RC.RC_OK
    ∧ (pinPage mdEmptyOne 0).2.readIOCount = 1 := by
  refine ⟨rfl, rfl, rfl, rfl, rfl, rfl⟩

/-- C2, evaluated at the failing input: with both frames pinned the FIFO scan
dequeues and drops the skipped pinned entries (queue [0, 1] becomes []), so
after unpinning page 0 the frame never becomes evictable again: a further
pin of page 2 still fails even though frame 0 is unpinned. -/
theorem fifo_scan_drops_pinned_entries :
    mdAllPinned.fifoQ = [0, 1]
    ∧ (pinPage mdAllPinned 2).1 = RC.RC_READ_NON_EXISTING_PAGE
    ∧ (pinPage mdAllPinned 2).2.fifoQ = []
    ∧ (runTrace mdAllPinned [Op.pin 2, Op.unpin 0, Op.pin 2]).1
        = [RC.RC_READ_NON_EXISTING_PAGE, RC.RC_OK, RC.RC_READ_NON_EXISTING_PAGE]
    ∧ ((runOps mdAllPinned [Op.pin 2, Op.unpin 0]).frames.getD 0 default).pinCount = 0 := by
  refine ⟨rfl, rfl, rfl, rfl, rfl⟩

/-- C3 counterexample: in the all-pinned FIFO pool the failed pin does change
the pool state, draining the FIFO queue, contrary to the claim that the
entire pool state (including the replacement structures) is unchanged. -/
theorem all_pinned_pin_changes_fifo_queue :
    (pinPage mdAllPinned 2).1 = RC.RC_READ_NON_EXISTING_PAGE
    ∧ (pinPage mdAllPinned 2).2.fifoQ ≠ mdAllPinned.fifoQ := by
  refine ⟨rfl, by decide⟩

/-- C7: over a one-page file, pinning page 5 into a fresh pool with a free
frame succeeds, grows the file to 6 pages whose 5 added pages are all
zero-filled, loads a zeroed page 5 into frame 0 with pin count 1, and leaves
readIOCount = 1 and writeIOCount = 0. -/
theorem pin_out_of_range_grows_file (p0 : Page) :
    (pinPage (initBufferPool
        { totalNumPages := 1, curPagePos := 0, pages := [p0],
          writeFails := false, readFails := false } 3 ReplacementStrategy.RS_FIFO) 5).1
      = RC.RC_OK
    ∧ (pinPage (initBufferPool
        { totalNumPages := 1, curPagePos := 0, pages := [p0],
          writeFails := false, readFails := false } 3 ReplacementStrategy.RS_FIFO) 5).2.fh.totalNumPages = 6
    ∧ (pinPage (initBufferPool
        { totalNumPages := 1, curPagePos := 0, pages := [p0],
          writeFails := false, readFails := false } 3 ReplacementStrategy.RS_FIFO) 5).2.fh.pages
      = p0 :: List.replicate 5 zeroPage
    ∧ ((pinPage (initBufferPool
        { totalNumPages := 1, curPagePos := 0, pages := [p0],
          writeFails := false, readFails := false } 3 ReplacementStrategy.RS_FIFO) 5).2.frames.getD 0 default).pageId = 5
    ∧ ((pinPage (initBufferPool
        { totalNumPages := 1, curPagePos := 0, pages := [p0],
          writeFails := false, readFails := false } 3 ReplacementStrategy.RS_FIFO) 5).2.frames.getD 0 default).data = zeroPage
    ∧ ((pinPage (initBufferPool
        { totalNumPages := 1, curPagePos := 0, pages := [p0],
          writeFails := false, readFails := false } 3 ReplacementStrategy.RS_FIFO) 5).2.frames.getD 0 default).pinCount = 1
    ∧ (pinPage (initBufferPool
        { totalNumPages := 1, curPagePos := 0, pages := [p0],
          writeFails := false, readFails := false } 3 ReplacementStrategy.RS_FIFO) 5).2.readIOCount = 1
    ∧ (pinPage (initBufferPool
        { totalNumPages := 1, curPagePos := 0, pages := [p0],
          writeFails := false, readFails := false } 3 ReplacementStrategy.RS_FIFO) 5).2.writeIOCount = 0 := by
  refine ⟨rfl, rfl, rfl, rfl, rfl, rfl, rfl, rfl⟩

/-- C8: a successful create yields exactly one page of PAGE_SIZE bytes, every
byte zero; and create fails with RC_WRITE_FAILED whenever the open, the
buffer allocation, or the full-page write fails. -/
theorem createPageFile_spec :
    createPageFile true true true = (RC.RC_OK, some [zeroPage])
    ∧ zeroPage.length = PAGE_SIZE
    ∧ (∀ b ∈ zeroPage, b = 0)
    ∧ (∀ o a w : Bool, o = false ∨ a = false ∨ w = false →
         (createPageFile o a w).1 = RC.RC_WRITE_FAILED) := by
  refine ⟨rfl, List.length_replicate _ _, ?_, ?_⟩
  · intro b hb
    exact (List.eq_of_mem_replicate hb)
  · intro o a w h
    rcases h with h | h | h
    · subst h; simp [createPageFile]
    · subst h; cases o <;> simp [createPageFile]
    · subst h; cases o <;> cases a <;> simp [createPageFile]

/-- Membership witness: the byte 0 occurs in the zero page. -/
theorem zero_mem_zeroPage : (0 : Nat) ∈ zeroPage := by
  rw [zeroPage]
  exact List.mem_replicate.2 ⟨by norm_num [PAGE_SIZE], rfl⟩

theorem createPageFile_spec_witness :
    ((false = false ∨ (true : Bool) = false ∨ (true : Bool) = false)
      ∧ (createPageFile false true true).1 = RC.RC_WRITE_FAILED)
    ∧ (0 : Nat) ∈ zeroPage ∧ (0 : Nat) = 0 :=
  ⟨⟨Or.inl rfl, createPageFile_spec.2.2.2 false true true (Or.inl rfl)⟩,
   zero_mem_zeroPage,
   createPageFile_spec.2.2.1 0 zero_mem_zeroPage⟩

end CS525

namespace CS525

/-! Helper lemmas about list access, the frame-search loops and the victim
scans, used by the invariant proofs below. -/

/-- getD after set at the written (in-range) index gives the new element. -/
theorem getD_set_self {α : Type} (l : List α) (i : Nat) (a d : α) (h : i < l.length) :
    (l.set i a).getD i d = a := by
  rw [List.getD_eq_getElem?_getD, List.getElem?_set_self h, Option.getD_some]

/-- getD after set at a different index is unchanged. -/
theorem getD_set_ne {α : Type} (l : List α) (i j : Nat) (a d : α) (h : i ≠ j) :
    (l.set i a).getD j d = l.getD j d := by
  rw [List.getD_eq_getElem?_getD, List.getElem?_set_ne h, ← List.getD_eq_getElem?_getD]

/-- getD of an in-range index is a member of the list. -/
theorem getD_mem {α : Type} (l : List α) (i : Nat) (d : α) (h : i < l.length) :
    l.getD i d ∈ l := by
  rw [List.getD_eq_getElem l d h]
  exact List.getElem_mem h

/-- How countP changes across a single in-range set. -/
theorem countP_set (p : Frame → Bool) (l : List Frame) (i : Nat) (a : Frame)
    (h : i < l.length) :
    (l.set i a).countP p + (if p (l.getD i default) then 1 else 0)
      = l.countP p + (if p a then 1 else 0) := by
  induction l generalizing i with
  | nil => simp at h
  | cons x xs ih =>
    cases i with
    | zero =>
      simp only [List.set_cons_zero, List.getD_cons_zero, List.countP_cons]
      omega
    | succ n =>
      simp only [List.set_cons_succ, List.getD_cons_succ, List.countP_cons]
      have := ih n (by simpa using h)
      omega

/-- Unfolding equation for findFrameIdx on nil. -/
theorem findFrameIdx_nil (p : Frame → Bool) : findFrameIdx p [] = none := rfl

/-- Unfolding equation for findFrameIdx on cons. -/
theorem findFrameIdx_cons (p : Frame → Bool) (f : Frame) (rest : List Frame) :
    findFrameIdx p (f :: rest)
      = if p f then some 0 else (findFrameIdx p rest).map (fun i => i + 1) := rfl

/-- A found index is in range and its frame satisfies the search predicate. -/
theorem findFrameIdx_some (p : Frame → Bool) (l : List Frame) (i : Nat)
    (h : findFrameIdx p l = some i) :
    i < l.length ∧ p (l.getD i default) = true := by
  induction l generalizing i with
  | nil => rw [findFrameIdx_nil] at h; cases h
  | cons f rest ih =>
    rw [findFrameIdx_cons] at h
    by_cases hp : p f
    · rw [if_pos hp] at h
      cases h
      simpa using hp
    · rw [if_neg hp] at h
      cases hr : findFrameIdx p rest with
      | none => rw [hr] at h; cases h
      | some j =>
        rw [hr] at h
        simp at h
        obtain ⟨h1, h2⟩ := ih j hr
        subst h
        exact ⟨by simpa using Nat.succ_lt_succ h1, by simpa [List.getD_cons_succ] using h2⟩

/-- The search fails exactly when no frame satisfies the predicate. -/
theorem findFrameIdx_none (p : Frame → Bool) (l : List Frame) :
    findFrameIdx p l = none ↔ ∀ f ∈ l, p f = false := by
  induction l with
  | nil => rw [findFrameIdx_nil]; simp
  | cons f rest ih =>
    rw [findFrameIdx_cons]
    by_cases hp : p f
    · simp [hp]
    · cases hr : findFrameIdx p rest with
      | none =>
        simp only [hp, if_neg, Bool.false_eq_true, not_false_eq_true, Option.map_none]
        constructor
        · intro _ g hg
          rcases List.mem_cons.1 hg with rfl | hg2
          · simpa using hp
          · exact (ih.1 hr) g hg2
        · intro _
          rfl
      | some j =>
        simp only [hp, if_neg, Bool.false_eq_true, not_false_eq_true, hr, Option.map_some]
        constructor
        · intro h; cases h
        · intro h
          have : findFrameIdx p rest = none := ih.2 (fun g hg => h g (List.mem_cons.2 (Or.inr hg)))
          rw [this] at hr
          cases hr

/-- Unfolding equation for fifoScan on nil. -/
theorem fifoScan_nil (frames : List Frame) : fifoScan frames [] = (none, []) := rfl

/-- Unfolding equation for fifoScan on cons. -/
theorem fifoScan_cons (frames : List Frame) (j : Nat) (js : List Nat) :
    fifoScan frames (j :: js)
      = if (frames.getD j default).pinCount = 0 then (some j, js)
        else fifoScan frames js := rfl

/-- A FIFO-scan victim has pin count zero (the loop only stops on one). -/
theorem fifoScan_some (frames : List Frame) (q : List Nat) (i : Nat) (rest : List Nat)
    (h : fifoScan frames q = (some i, rest)) :
    (frames.getD i default).pinCount = 0 := by
  induction q generalizing rest with
  | nil => rw [fifoScan_nil] at h; simp at h
  | cons j js ih =>
    rw [fifoScan_cons] at h
    by_cases hp : (frames.getD j default).pinCount = 0
    · rw [if_pos hp] at h
      have h1 : some j = some i := congrArg Prod.fst h
      injection h1 with h2
      subst h2
      exact hp
    · rw [if_neg hp] at h
      exact ih rest h

/-- When every queued frame is pinned the FIFO scan fails and, having popped
each entry it examined, leaves the queue empty. -/
theorem fifoScan_all_pinned (frames : List Frame) (q : List Nat)
    (h : ∀ j ∈ q, (frames.getD j default).pinCount ≠ 0) :
    fifoScan frames q = (none, []) := by
  induction q with
  | nil => rfl
  | cons j js ih =>
    have hj := h j (List.mem_cons_self j js)
    rw [fifoScan_cons, if_neg hj]
    exact ih (fun k hk => h k (List.mem_cons.2 (Or.inr hk)))

/-- An LRU-scan victim has pin count zero. -/
theorem lruScan_some (frames : List Frame) (lru : List Nat) (i : Nat)
    (h : lruScan frames lru = some i) :
    (frames.getD i default).pinCount = 0 := by
  have := List.find?_some h
  simpa using this

/-- When every listed frame is pinned the LRU scan fails. -/
theorem lruScan_all_pinned (frames : List Frame) (lru : List Nat)
    (h : ∀ j ∈ lru, (frames.getD j default).pinCount ≠ 0) :
    lruScan frames lru = none := by
  rw [lruScan, List.find?_eq_none]
  intro j hj
  simpa using h j (List.mem_reverse.1 hj)

end CS525

namespace CS525

/-- C3 (amended): when every frame is resident and pinned and the requested
page is not resident, pinPage fails with RC_READ_NON_EXISTING_PAGE and leaves
the frames, both I/O counters, the LRU list and the file unchanged; the one
deviation from the claim is the FIFO queue, which the destructive victim scan
drains to empty under RS_FIFO (it is untouched under the other strategies). -/
theorem all_pinned_pin_fails (md : PoolMetadata) (pid : Int)
    (hpid : 0 ≤ pid)
    (hmiss : ∀ f ∈ md.frames, f.pageId ≠ pid)
    (hfull : ∀ f ∈ md.frames, f.pageId ≠ NO_PAGE)
    (hpin : ∀ f ∈ md.frames, 0 < f.pinCount)
    (hq : ∀ i ∈ md.fifoQ, i < md.frames.length)
    (hl : ∀ i ∈ md.lru, i < md.frames.length) :
    pinPage md pid =
      (RC.RC_READ_NON_EXISTING_PAGE,
       { md with fifoQ := if md.strat = ReplacementStrategy.RS_FIFO then []
                          else md.fifoQ }) := by
  have h0 : ¬ pid < 0 := not_lt.2 hpid
  have hhit : findFrameIdx (fun f => f.pageId == pid) md.frames = none :=
    (findFrameIdx_none _ _).2 (fun f hf => by simpa using hmiss f hf)
  have hfree : findFrameIdx (fun f => f.pageId == NO_PAGE) md.frames = none :=
    (findFrameIdx_none _ _).2 (fun f hf => by simpa using hfull f hf)
  have hqpin : ∀ j ∈ md.fifoQ, (md.frames.getD j default).pinCount ≠ 0 := by
    intro j hj
    exact Nat.ne_of_gt (hpin _ (getD_mem _ _ _ (hq j hj)))
  have hlpin : ∀ j ∈ md.lru, (md.frames.getD j default).pinCount ≠ 0 := by
    intro j hj
    exact Nat.ne_of_gt (hpin _ (getD_mem _ _ _ (hl j hj)))
  by_cases hs : md.strat = ReplacementStrategy.RS_FIFO
  · have hscan := fifoScan_all_pinned md.frames md.fifoQ hqpin
    simp [pinPage, h0, hhit, hfree, selectVictim, hs, hscan]
  · have hscan := lruScan_all_pinned md.frames md.lru hlpin
    simp [pinPage, h0, hhit, hfree, selectVictim, hs, hscan]

theorem all_pinned_pin_fails_witness :
    ((0 : Int) ≤ 2
      ∧ (∀ f ∈ mdAllPinned.frames, f.pageId ≠ 2)
      ∧ (∀ f ∈ mdAllPinned.frames, f.pageId ≠ NO_PAGE)
      ∧ (∀ f ∈ mdAllPinned.frames, 0 < f.pinCount)
      ∧ (∀ i ∈ mdAllPinned.fifoQ, i < mdAllPinned.frames.length)
      ∧ (∀ i ∈ mdAllPinned.lru, i < mdAllPinned.frames.length))
    ∧ pinPage mdAllPinned 2 =
        (RC.RC_READ_NON_EXISTING_PAGE,
         { mdAllPinned with
             fifoQ := if mdAllPinned.strat = ReplacementStrategy.RS_FIFO then []
                      else mdAllPinned.fifoQ }) :=
  ⟨⟨by decide, by decide, by decide, by decide, by decide, by decide⟩,
   all_pinned_pin_fails mdAllPinned 2 (by decide) (by decide) (by decide)
     (by decide) (by decide) (by decide)⟩

end CS525

namespace CS525

/-- The per-frame effect of forceFlushPool on the frame table: a frame
meeting the flush condition comes back clean, any other frame is untouched. -/
def flushOne (f : Frame) : Frame :=
  if flushCond f then { f with isDirty := false } else f

/-- Unfolding equation for flushFrames on nil. -/
theorem flushFrames_nil (fh : SMFileHandle) (w : Nat) :
    flushFrames fh w [] = ([], fh, w) := rfl

/-- Unfolding equation for flushFrames on cons. -/
theorem flushFrames_cons (fh : SMFileHandle) (w : Nat) (f : Frame) (rest : List Frame) :
    flushFrames fh w (f :: rest)
      = if flushCond f then
          let fh1 := (writeBlock f.pageId fh f.data).2
          let r := flushFrames fh1 (w + 1) rest
          ({ f with isDirty := false } :: r.1, r.2.1, r.2.2)
        else
          let r := flushFrames fh w rest
          (f :: r.1, r.2.1, r.2.2) := rfl

/-- A frame failing the flush condition is empty, or clean, or pinned. -/
theorem flushCond_false (f : Frame) (h : flushCond f = false) :
    f.pageId = NO_PAGE ∨ f.isDirty = false ∨ f.pinCount ≠ 0 := by
  by_cases h1 : f.pageId = NO_PAGE
  · exact Or.inl h1
  · by_cases h3 : f.pinCount = 0
    · cases hD : f.isDirty
      · exact Or.inr (Or.inl rfl)
      · exfalso
        have ht : flushCond f = true := by
          simp [flushCond, bne_iff_ne, h1, h3, hD]
        rw [ht] at h
        simp at h
    · exact Or.inr (Or.inr h3)

/-- An in-bounds write with no injected fault succeeds and just replaces the
target page, moving the cursor. -/
theorem writeBlock_ok (pageNum : Int) (fh : SMFileHandle) (memPage : Page)
    (h0 : 0 ≤ pageNum) (h1 : pageNum < (fh.totalNumPages : Int))
    (hwf : fh.writeFails = false) :
    writeBlock pageNum fh memPage =
      (RC.RC_OK, { fh with pages := fh.pages.set pageNum.toNat memPage,
                           curPagePos := pageNum }) := by
  have hn : ¬ pageNum < 0 := not_lt.2 h0
  have hge : ¬ pageNum ≥ (fh.totalNumPages : Int) := not_le.2 h1
  simp [writeBlock, hn, hge, hwf]

/-- forceFlushPool flushes exactly the frames meeting the flush condition:
the resulting frame table is the pointwise flushOne image. -/
theorem flushFrames_frames (fs : List Frame) (fh : SMFileHandle) (w : Nat) :
    (flushFrames fh w fs).1 = fs.map flushOne := by
  induction fs generalizing fh w with
  | nil => rfl
  | cons f rest ih =>
    rw [flushFrames_cons]
    by_cases hc : flushCond f
    · simp only [hc, if_pos, List.map_cons, flushOne]
      simp [hc, ih]
    · simp only [hc, if_neg, Bool.false_eq_true, not_false_eq_true, List.map_cons, flushOne]
      simp [hc, ih]

/-- forceFlushPool increments writeIOCount once per flushed frame. -/
theorem flushFrames_writeIOCount (fs : List Frame) (fh : SMFileHandle) (w : Nat) :
    (flushFrames fh w fs).2.2 = w + fs.countP flushCond := by
  induction fs generalizing fh w with
  | nil => simp [flushFrames_nil]
  | cons f rest ih =>
    rw [flushFrames_cons]
    by_cases hc : flushCond f
    · simp only [hc, if_pos, List.countP_cons]
      rw [ih]
      omega
    · simp only [hc, if_neg, Bool.false_eq_true, not_false_eq_true, List.countP_cons]
      rw [ih]
      omega

end CS525

namespace CS525

/-- Nonnegative integers with distinct values have distinct toNat images. -/
theorem toNat_ne_of_ne {a b : Int} (ha : 0 ≤ a) (hb : 0 ≤ b) (h : a ≠ b) :
    a.toNat ≠ b.toNat := by
  intro he
  apply h
  omega

/-- Flushing does not disturb the failure flags, page count or file length
when every flushed frame targets an in-bounds page. -/
theorem flushFrames_fh_inv (fs : List Frame) (fh : SMFileHandle) (w : Nat)
    (hwf : fh.writeFails = false)
    (hrange : ∀ f ∈ fs, flushCond f = true →
        0 ≤ f.pageId ∧ f.pageId < (fh.totalNumPages : Int)) :
    (flushFrames fh w fs).2.1.writeFails = false
    ∧ (flushFrames fh w fs).2.1.totalNumPages = fh.totalNumPages
    ∧ (flushFrames fh w fs).2.1.pages.length = fh.pages.length := by
  induction fs generalizing fh w with
  | nil => exact ⟨hwf, rfl, rfl⟩
  | cons f rest ih =>
    rw [flushFrames_cons]
    by_cases hc : flushCond f
    · have hr := hrange f (List.mem_cons_self f rest) hc
      have hwb := writeBlock_ok f.pageId fh f.data hr.1 hr.2 hwf
      simp only [hc, if_pos, hwb]
      have ihx := ih { fh with pages := fh.pages.set f.pageId.toNat f.data,
                               curPagePos := f.pageId } (w + 1) hwf
        (fun g hg hcg => hrange g (List.mem_cons.2 (Or.inr hg)) hcg)
      simpa [List.length_set] using ihx
    · simp only [hc, if_neg, Bool.false_eq_true, not_false_eq_true]
      exact ih fh w hwf (fun g hg hcg => hrange g (List.mem_cons.2 (Or.inr hg)) hcg)

/-- Flushing leaves every disk page untouched whose index is hit by no
flushed frame. -/
theorem flushFrames_getD_untouched (fs : List Frame) (fh : SMFileHandle) (w : Nat)
    (q : Nat)
    (hwf : fh.writeFails = false)
    (hrange : ∀ f ∈ fs, flushCond f = true →
        0 ≤ f.pageId ∧ f.pageId < (fh.totalNumPages : Int))
    (hne : ∀ f ∈ fs, flushCond f = true → f.pageId.toNat ≠ q) :
    (flushFrames fh w fs).2.1.pages.getD q zeroPage = fh.pages.getD q zeroPage := by
  induction fs generalizing fh w with
  | nil => rfl
  | cons f rest ih =>
    rw [flushFrames_cons]
    by_cases hc : flushCond f
    · have hr := hrange f (List.mem_cons_self f rest) hc
      have hwb := writeBlock_ok f.pageId fh f.data hr.1 hr.2 hwf
      simp only [hc, if_pos, hwb]
      rw [ih { fh with pages := fh.pages.set f.pageId.toNat f.data,
                       curPagePos := f.pageId } (w + 1) hwf
            (fun g hg hcg => hrange g (List.mem_cons.2 (Or.inr hg)) hcg)
            (fun g hg hcg => hne g (List.mem_cons.2 (Or.inr hg)) hcg)]
      exact getD_set_ne _ _ _ _ _ (hne f (List.mem_cons_self f rest) hc)
    · simp only [hc, if_neg, Bool.false_eq_true, not_false_eq_true]
      exact ih fh w hwf (fun g hg hcg => hrange g (List.mem_cons.2 (Or.inr hg)) hcg)
        (fun g hg hcg => hne g (List.mem_cons.2 (Or.inr hg)) hcg)

/-- After flushing, each flushed frame's page holds that frame's data on
disk, provided writes succeed, the file length is coherent, every flushed
page is in bounds, and flushed frames hold pairwise distinct pages. -/
theorem flushFrames_getD_flushed (fs : List Frame) (fh : SMFileHandle) (w : Nat)
    (hwf : fh.writeFails = false)
    (hlen : fh.pages.length = fh.totalNumPages)
    (hrange : ∀ f ∈ fs, flushCond f = true →
        0 ≤ f.pageId ∧ f.pageId < (fh.totalNumPages : Int))
    (hdist : (fs.filter flushCond).Pairwise (fun f g => f.pageId ≠ g.pageId)) :
    ∀ f ∈ fs, flushCond f = true →
      (flushFrames fh w fs).2.1.pages.getD f.pageId.toNat zeroPage = f.data := by
  induction fs generalizing fh w with
  | nil => intro f hf; cases hf
  | cons f0 rest ih =>
    intro f hf hcf
    by_cases hc : flushCond f0
    · have hr0 := hrange f0 (List.mem_cons_self f0 rest) hc
      have hwb := writeBlock_ok f0.pageId fh f0.data hr0.1 hr0.2 hwf
      have hfil : (f0 :: rest).filter flushCond = f0 :: rest.filter flushCond := by
        simp [List.filter_cons, hc]
      rw [hfil] at hdist
      have hd0 := (List.pairwise_cons.1 hdist).1
      have hdrest := (List.pairwise_cons.1 hdist).2
      rw [flushFrames_cons]
      simp only [hc, if_pos, hwb]
      rcases List.mem_cons.1 hf with rfl | hfr
      · rw [flushFrames_getD_untouched rest
            { fh with pages := fh.pages.set f.pageId.toNat f.data,
                      curPagePos := f.pageId } (w + 1) f.pageId.toNat hwf
            (fun g hg hcg => hrange g (List.mem_cons.2 (Or.inr hg)) hcg)
            (fun g hg hcg =>
              toNat_ne_of_ne (hrange g (List.mem_cons.2 (Or.inr hg)) hcg).1 hr0.1
                (fun he => (hd0 g (List.mem_filter.2 ⟨hg, hcg⟩) he.symm)))]
        exact getD_set_self _ _ _ _ (by
          have := hr0.2
          have h0 := hr0.1
          omega)
      · exact ih { fh with pages := fh.pages.set f0.pageId.toNat f0.data,
                           curPagePos := f0.pageId } (w + 1) hwf
          (by simpa [List.length_set] using hlen)
          (fun g hg hcg => hrange g (List.mem_cons.2 (Or.inr hg)) hcg)
          hdrest f hfr hcf
    · rcases List.mem_cons.1 hf with rfl | hfr
      · rw [hcf] at hc
        simp at hc
      · have hfil : (f0 :: rest).filter flushCond = rest.filter flushCond := by
          simp [List.filter_cons, hc]
        rw [hfil] at hdist
        rw [flushFrames_cons]
        simp only [hc, if_neg, Bool.false_eq_true, not_false_eq_true]
        exact ih fh w hwf hlen
          (fun g hg hcg => hrange g (List.mem_cons.2 (Or.inr hg)) hcg)
          hdist f hfr hcf

end CS525

namespace CS525

/-- C5: forceFlushPool returns OK; afterwards every frame is clean or pinned
(given the data-model invariant that empty frames are clean); it clears the
dirty flag on exactly the resident, dirty, unpinned frames and increments
writeIOCount once per frame written; and (when writes succeed, the file length is
coherent, flushed pages are in bounds and pairwise distinct) the written
frames' data is on disk afterwards. -/
theorem forceFlushPool_spec (md : PoolMetadata)
    (hempty : ∀ f ∈ md.frames, f.pageId = NO_PAGE → f.isDirty = false) :
    (forceFlushPool md).1 = RC.RC_OK
    ∧ (∀ f ∈ (forceFlushPool md).2.frames, f.isDirty = false ∨ 0 < f.pinCount)
    ∧ (forceFlushPool md).2.frames = md.frames.map flushOne
    ∧ (forceFlushPool md).2.writeIOCount = md.writeIOCount + md.frames.countP flushCond
    ∧ (md.fh.writeFails = false →
       md.fh.pages.length = md.fh.totalNumPages →
       (∀ f ∈ md.frames, flushCond f = true →
          0 ≤ f.pageId ∧ f.pageId < (md.fh.totalNumPages : Int)) →
       (md.frames.filter flushCond).Pairwise (fun f g => f.pageId ≠ g.pageId) →
       ∀ f ∈ md.frames, flushCond f = true →
         (forceFlushPool md).2.fh.pages.getD f.pageId.toNat zeroPage = f.data) := by
  have hframes : (forceFlushPool md).2.frames = md.frames.map flushOne :=
    flushFrames_frames md.frames md.fh md.writeIOCount
  refine ⟨rfl, ?_, hframes, flushFrames_writeIOCount md.frames md.fh md.writeIOCount, ?_⟩
  · intro f hf
    rw [hframes] at hf
    obtain ⟨g, hg, rfl⟩ := List.mem_map.1 hf
    by_cases hc : flushCond g
    · left
      simp [flushOne, hc]
    · have hc2 : flushCond g = false := by
        cases hcv : flushCond g
        · rfl
        · exact absurd hcv hc
      rcases flushCond_false g hc2 with h1 | h1 | h1
      · left
        simp [flushOne, hc2, hempty g hg h1]
      · left
        simp [flushOne, hc2, h1]
      · right
        simp only [flushOne, hc2, Bool.false_eq_true, if_false]
        exact Nat.pos_of_ne_zero h1
  · intro hwf hlen hrange hdist f hf hcf
    exact flushFrames_getD_flushed md.frames md.fh md.writeIOCount hwf hlen hrange hdist f hf hcf

/-- A capacity-2 pool: page 0 dirty and unpinned, page 1 clean and pinned. -/
def mdFlushW : PoolMetadata :=
  { fh := fhA
    frames := [{ pageId := 0, data := zeroPage, isDirty := true, pinCount := 0 },
               { pageId := 1, data := zeroPage, isDirty := false, pinCount := 1 }]
    capacity := 2, strat := ReplacementStrategy.RS_FIFO
    readIOCount := 0, writeIOCount := 0, fifoQ := [0, 1], lru := [] }

theorem forceFlushPool_spec_witness :
    (∀ f ∈ mdFlushW.frames, f.pageId = NO_PAGE → f.isDirty = false)
    ∧ (forceFlushPool mdFlushW).1 = RC.RC_OK
    ∧ (forceFlushPool mdFlushW).2.writeIOCount
        = mdFlushW.writeIOCount + mdFlushW.frames.countP flushCond :=
  ⟨by decide, (forceFlushPool_spec mdFlushW (by decide)).1,
   (forceFlushPool_spec mdFlushW (by decide)).2.2.2.1⟩

end CS525


namespace CS525

/-- Victim selection never alters the frame table. -/
theorem selectVictim_frames (md : PoolMetadata) (r : Option Nat) (md1 : PoolMetadata)
    (h : selectVictim md = (r, md1)) : md1.frames = md.frames := by
  by_cases hs : md.strat = ReplacementStrategy.RS_FIFO
  · rw [selectVictim, if_pos hs] at h
    cases hscan : fifoScan md.frames md.fifoQ with
    | mk res q =>
      rw [hscan] at h
      have h2 : md1 = { md with fifoQ := q } := (congrArg Prod.snd h).symm
      rw [h2]
  · rw [selectVictim, if_neg hs] at h
    have h2 : md1 = md := (congrArg Prod.snd h).symm
    rw [h2]

/-- A selected victim is unpinned. -/
theorem selectVictim_some (md : PoolMetadata) (v : Nat) (md1 : PoolMetadata)
    (h : selectVictim md = (some v, md1)) :
    (md.frames.getD v default).pinCount = 0 := by
  by_cases hs : md.strat = ReplacementStrategy.RS_FIFO
  · rw [selectVictim, if_pos hs] at h
    cases hscan : fifoScan md.frames md.fifoQ with
    | mk res q =>
      rw [hscan] at h
      have h1 : res = some v := congrArg Prod.fst h
      subst h1
      exact fifoScan_some md.frames md.fifoQ v q hscan
  · rw [selectVictim, if_neg hs] at h
    exact lruScan_some md.frames md.lru v (congrArg Prod.fst h)

/-- Frame-table effect of loadIntoSlot: the slot is overwritten with a
fresh pin-1 clean frame holding pid; no other frame changes. -/
theorem loadIntoSlot_frames_set (md2 : PoolMetadata) (slot : Nat) (pid : Int)
    (fr : List Frame) (hfr : md2.frames = fr) :
    ∃ d, (loadIntoSlot md2 slot pid).2.frames = fr.set slot
      { pageId := pid, data := d, isDirty := false, pinCount := 1 } := by
  subst hfr
  refine ⟨(readBlock pid (if pid ≥ (md2.fh.totalNumPages : Int)
              then { md2 with fh := (ensureCapacity (pid + 1) md2.fh).2 }
              else md2).fh ((md2.frames.getD slot default).data)).2.2, ?_⟩
  by_cases hg : pid ≥ (md2.fh.totalNumPages : Int)
  · simp only [loadIntoSlot, hg, if_pos]
    by_cases hs : md2.strat = ReplacementStrategy.RS_FIFO <;>
      simp [hs, enqueueFIFO]
  · simp only [loadIntoSlot, hg, if_neg, not_false_eq_true]
    by_cases hs : md2.strat = ReplacementStrategy.RS_FIFO <;>
      simp [hs, enqueueFIFO]

/-- Case analysis of pinPage's effect on the frame table: unchanged (negative
pid or no victim available), a hit that bumps one pin count, or a load that
overwrites one free or unpinned slot with a fresh pin-1 frame. -/
theorem pinPage_frames_cases (md : PoolMetadata) (pid : Int) :
    (pinPage md pid).2.frames = md.frames
    ∨ (0 ≤ pid ∧ ∃ i,
        findFrameIdx (fun f => f.pageId == pid) md.frames = some i ∧
        (pinPage md pid).2.frames = md.frames.set i
          { md.frames.getD i default with
              pinCount := (md.frames.getD i default).pinCount + 1 })
    ∨ (0 ≤ pid ∧
        findFrameIdx (fun f => f.pageId == pid) md.frames = none ∧ ∃ s,
        ((md.frames.getD s default).pageId = NO_PAGE
          ∨ (md.frames.getD s default).pinCount = 0)
        ∧ ∃ d, (pinPage md pid).2.frames = md.frames.set s
            { pageId := pid, data := d, isDirty := false, pinCount := 1 }) := by
  by_cases h0 : pid < 0
  · left
    simp [pinPage, h0]
  · have h0x : 0 ≤ pid := not_lt.1 h0
    cases hhit : findFrameIdx (fun f => f.pageId == pid) md.frames with
    | some i =>
      right; left
      refine ⟨h0x, i, rfl, ?_⟩
      rw [pinPage, if_neg h0, hhit]
      by_cases hs : md.strat = ReplacementStrategy.RS_LRU ∨
          md.strat = ReplacementStrategy.RS_LRU_K <;>
        simp [hs]
    | none =>
      cases hfree : findFrameIdx (fun f => f.pageId == NO_PAGE) md.frames with
      | some s =>
        right; right
        refine ⟨h0x, rfl, s, Or.inl ?_, ?_⟩
        · have := (findFrameIdx_some _ _ _ hfree).2
          simpa using this
        · rw [pinPage, if_neg h0, hhit, hfree]
          exact loadIntoSlot_frames_set md s pid md.frames rfl
      | none =>
        cases hsel : selectVictim md with
        | mk res md1 =>
          have hmd1 : md1.frames = md.frames := selectVictim_frames md res md1 hsel
          cases res with
          | none =>
            left
            rw [pinPage, if_neg h0, hhit, hfree, hsel]
            show md1.frames = md.frames
            exact hmd1
          | some v =>
            right; right
            have hvpin := selectVictim_some md v md1 hsel
            refine ⟨h0x, rfl, v, Or.inr hvpin, ?_⟩
            rw [pinPage, if_neg h0, hhit, hfree, hsel]
            refine loadIntoSlot_frames_set _ v pid md.frames ?_
            split <;> simp [hmd1]

/-- Frame-table effect of unpinPage: unchanged, or one pin count decrement. -/
theorem unpinPage_frames_cases (md : PoolMetadata) (p : Int) :
    (unpinPage md p).2.frames = md.frames
    ∨ ∃ i, findFrameIdx (fun f => f.pageId == p) md.frames = some i ∧
      (unpinPage md p).2.frames = md.frames.set i
        { md.frames.getD i default with
            pinCount := (md.frames.getD i default).pinCount - 1 } := by
  cases hf : findFrameIdx (fun f => f.pageId == p) md.frames with
  | none => left; rw [unpinPage, hf]
  | some i =>
    by_cases hp : 0 < (md.frames.getD i default).pinCount
    · right
      refine ⟨i, rfl, ?_⟩
      rw [unpinPage, hf]
      split
      · next j heq =>
        injection heq with h2
        subst h2
        rw [if_pos hp]
      · next heq => cases heq
    · left
      rw [unpinPage, hf]
      split
      · next j heq =>
        injection heq with h2
        subst h2
        rw [if_neg hp]
      · next heq => cases heq

/-- Frame-table effect of markDirty: unchanged, or one dirty flag set. -/
theorem markDirty_frames_cases (md : PoolMetadata) (p : Int) :
    (markDirty md p).2.frames = md.frames
    ∨ ∃ i, findFrameIdx (fun f => f.pageId == p) md.frames = some i ∧
      (markDirty md p).2.frames = md.frames.set i
        { md.frames.getD i default with isDirty := true } := by
  cases hf : findFrameIdx (fun f => f.pageId == p) md.frames with
  | none => left; rw [markDirty, hf]
  | some i =>
    right
    refine ⟨i, rfl, ?_⟩
    rw [markDirty, hf]

/-- Frame-table effect of forcePage: unchanged, or one dirty flag cleared. -/
theorem forcePage_frames_cases (md : PoolMetadata) (p : Int) :
    (forcePage md p).2.frames = md.frames
    ∨ ∃ i, findFrameIdx (fun f => f.pageId == p) md.frames = some i ∧
      (forcePage md p).2.frames = md.frames.set i
        { md.frames.getD i default with isDirty := false } := by
  cases hf : findFrameIdx (fun f => f.pageId == p) md.frames with
  | none => left; rw [forcePage, hf]
  | some i =>
    right
    refine ⟨i, rfl, ?_⟩
    rw [forcePage, hf]

/-- Frame-table effect of forceFlushPool: the pointwise flushOne image. -/
theorem forceFlushPool_frames (md : PoolMetadata) :
    (forceFlushPool md).2.frames = md.frames.map flushOne :=
  flushFrames_frames md.frames md.fh md.writeIOCount

end CS525

namespace CS525

/-- flushOne never changes a frame's page id. -/
theorem flushOne_pageId (f : Frame) : (flushOne f).pageId = f.pageId := by
  rw [flushOne]
  split <;> rfl

/-- flushOne never changes a frame's pin count. -/
theorem flushOne_pinCount (f : Frame) : (flushOne f).pinCount = f.pinCount := by
  rw [flushOne]
  split <;> rfl

/-- getD commutes with mapping flushOne (flushOne fixes the default frame). -/
theorem getD_map_flushOne (l : List Frame) (i : Nat) :
    (l.map flushOne).getD i default = flushOne (l.getD i default) := by
  induction l generalizing i with
  | nil => cases i <;> rfl
  | cons f rest ih =>
    cases i with
    | zero => rfl
    | succ n => simpa [List.getD_cons_succ] using ih n

/-- Out-of-range getD returns the default. -/
theorem getD_oob {α : Type} (l : List α) (i : Nat) (d : α) (h : l.length ≤ i) :
    l.getD i d = d := by
  rw [List.getD_eq_getElem?_getD, List.getElem?_eq_none h, Option.getD_none]

/-- Setting an index to a frame with the same page id preserves every frame's
page id as seen through getD. -/
theorem pageId_getD_set (l : List Frame) (j : Nat) (a : Frame) (i : Nat)
    (ha : a.pageId = (l.getD j default).pageId) :
    ((l.set j a).getD i default).pageId = (l.getD i default).pageId := by
  by_cases hj : j < l.length
  · by_cases hij : j = i
    · subst hij
      rw [getD_set_self _ _ _ _ hj, ha]
    · rw [getD_set_ne _ _ _ _ _ hij]
  · rw [List.set_eq_of_length_le (not_lt.1 hj)]

/-- Data-model invariant: an empty frame is never pinned. -/
def EmptyUnpinned (md : PoolMetadata) : Prop :=
  ∀ f ∈ md.frames, f.pageId = NO_PAGE → f.pinCount = 0

/-- Setting one slot whose new frame respects the invariant preserves it. -/
theorem emptyUnpinned_set (l : List Frame)
    (h : ∀ f ∈ l, f.pageId = NO_PAGE → f.pinCount = 0) (i : Nat) (a : Frame)
    (ha : a.pageId = NO_PAGE → a.pinCount = 0) :
    ∀ f ∈ l.set i a, f.pageId = NO_PAGE → f.pinCount = 0 := by
  intro f hf
  rcases List.mem_or_eq_of_mem_set hf with hf2 | rfl
  · exact h f hf2
  · exact ha

/-- Every buffer-pool operation preserves the empty-frames-unpinned
invariant. -/
theorem emptyUnpinned_step (md : PoolMetadata) (op : Op) (h : EmptyUnpinned md) :
    EmptyUnpinned (stepOp md op).2 := by
  cases op with
  | pin pid =>
    show EmptyUnpinned (pinPage md pid).2
    rcases pinPage_frames_cases md pid with heq | ⟨h0, i, hfind, heq⟩ | ⟨h0, _, s, _, d, heq⟩
    · intro f hf
      rw [heq] at hf
      exact h f hf
    · intro f hf
      rw [heq] at hf
      refine emptyUnpinned_set md.frames h i _ ?_ f hf
      intro hpg
      exfalso
      have hpid : (md.frames.getD i default).pageId = pid := by
        have := (findFrameIdx_some _ _ _ hfind).2
        simpa using this
      have : (NO_PAGE : Int) = pid := by
        rw [← hpg]
        exact hpid.symm ▸ rfl
      rw [NO_PAGE] at this
      omega
    · intro f hf
      rw [heq] at hf
      refine emptyUnpinned_set md.frames h s _ ?_ f hf
      intro hpg
      exfalso
      have : (pid : Int) = NO_PAGE := hpg
      rw [NO_PAGE] at this
      omega
  | unpin p =>
    show EmptyUnpinned (unpinPage md p).2
    rcases unpinPage_frames_cases md p with heq | ⟨i, hfind, heq⟩
    · intro f hf
      rw [heq] at hf
      exact h f hf
    · intro f hf
      rw [heq] at hf
      refine emptyUnpinned_set md.frames h i _ ?_ f hf
      intro hpg
      have hlen := (findFrameIdx_some _ _ _ hfind).1
      have h0 := h (md.frames.getD i default) (getD_mem _ _ _ hlen) hpg
      show (md.frames.getD i default).pinCount - 1 = 0
      rw [h0]
  | markDirtyOp p =>
    show EmptyUnpinned (markDirty md p).2
    rcases markDirty_frames_cases md p with heq | ⟨i, hfind, heq⟩
    · intro f hf
      rw [heq] at hf
      exact h f hf
    · intro f hf
      rw [heq] at hf
      refine emptyUnpinned_set md.frames h i _ ?_ f hf
      intro hpg
      have hlen := (findFrameIdx_some _ _ _ hfind).1
      exact h (md.frames.getD i default) (getD_mem _ _ _ hlen) hpg
  | forcePageOp p =>
    show EmptyUnpinned (forcePage md p).2
    rcases forcePage_frames_cases md p with heq | ⟨i, hfind, heq⟩
    · intro f hf
      rw [heq] at hf
      exact h f hf
    · intro f hf
      rw [heq] at hf
      refine emptyUnpinned_set md.frames h i _ ?_ f hf
      intro hpg
      have hlen := (findFrameIdx_some _ _ _ hfind).1
      exact h (md.frames.getD i default) (getD_mem _ _ _ hlen) hpg
  | forceFlushOp =>
    show EmptyUnpinned (forceFlushPool md).2
    intro f hf
    rw [forceFlushPool_frames md] at hf
    obtain ⟨g, hg, rfl⟩ := List.mem_map.1 hf
    intro hpg
    rw [flushOne_pageId] at hpg
    rw [flushOne_pinCount]
    exact h g hg hpg

/-- The invariant holds in a freshly initialized pool. -/
theorem emptyUnpinned_init (fh : SMFileHandle) (cap : Nat)
    (strat : ReplacementStrategy) : EmptyUnpinned (initBufferPool fh cap strat) := by
  intro f hf _
  have := List.eq_of_mem_replicate hf
  rw [this]

/-- The invariant holds after any operation sequence from init. -/
theorem emptyUnpinned_runOps (ops : List Op) (md : PoolMetadata)
    (h : EmptyUnpinned md) : EmptyUnpinned (runOps md ops) := by
  induction ops generalizing md with
  | nil => exact h
  | cons op rest ih => exact ih _ (emptyUnpinned_step md op h)

end CS525

namespace CS525

/-- In a pool satisfying the empty-frames-unpinned invariant, no operation
changes the page id of a pinned frame. -/
theorem pinned_pageId_step (md : PoolMetadata) (op : Op) (i : Nat)
    (hEC : EmptyUnpinned md)
    (hpin : 0 < (md.frames.getD i default).pinCount) :
    ((stepOp md op).2.frames.getD i default).pageId
      = (md.frames.getD i default).pageId := by
  cases op with
  | pin pid =>
    show ((pinPage md pid).2.frames.getD i default).pageId = _
    rcases pinPage_frames_cases md pid with heq | ⟨_, j, hfind, heq⟩ | ⟨_, _, s, hs, d, heq⟩
    · rw [heq]
    · rw [heq]
      exact pageId_getD_set md.frames j _ i rfl
    · rw [heq]
      have hspin : (md.frames.getD s default).pinCount = 0 := by
        rcases hs with hpg | hpin0
        · by_cases hlen : s < md.frames.length
          · exact hEC _ (getD_mem _ _ _ hlen) hpg
          · rw [getD_oob _ _ _ (not_lt.1 hlen)]
            rfl
        · exact hpin0
      have hne : s ≠ i := by
        intro he
        rw [he] at hspin
        omega
      rw [getD_set_ne _ _ _ _ _ hne]
  | unpin p =>
    show ((unpinPage md p).2.frames.getD i default).pageId = _
    rcases unpinPage_frames_cases md p with heq | ⟨j, _, heq⟩
    · rw [heq]
    · rw [heq]
      exact pageId_getD_set md.frames j _ i rfl
  | markDirtyOp p =>
    show ((markDirty md p).2.frames.getD i default).pageId = _
    rcases markDirty_frames_cases md p with heq | ⟨j, _, heq⟩
    · rw [heq]
    · rw [heq]
      exact pageId_getD_set md.frames j _ i rfl
  | forcePageOp p =>
    show ((forcePage md p).2.frames.getD i default).pageId = _
    rcases forcePage_frames_cases md p with heq | ⟨j, _, heq⟩
    · rw [heq]
    · rw [heq]
      exact pageId_getD_set md.frames j _ i rfl
  | forceFlushOp =>
    show ((forceFlushPool md).2.frames.getD i default).pageId = _
    rw [forceFlushPool_frames md, getD_map_flushOne, flushOne_pageId]

/-- C4 (pin safety): in any pool reached from init by a sequence of
operations, no frame with a positive pin count has its page id changed by
the next operation (so it is never evicted or overwritten), and victim
selection under FIFO and under LRU only ever returns an unpinned frame. -/
theorem pin_safety (fh : SMFileHandle) (cap : Nat) (strat : ReplacementStrategy)
    (ops : List Op) :
    (∀ op i,
      0 < ((runOps (initBufferPool fh cap strat) ops).frames.getD i default).pinCount →
      ((stepOp (runOps (initBufferPool fh cap strat) ops) op).2.frames.getD i
          default).pageId
        = ((runOps (initBufferPool fh cap strat) ops).frames.getD i default).pageId)
    ∧ (∀ i rest,
        fifoScan (runOps (initBufferPool fh cap strat) ops).frames
            (runOps (initBufferPool fh cap strat) ops).fifoQ = (some i, rest) →
        ((runOps (initBufferPool fh cap strat) ops).frames.getD i default).pinCount = 0)
    ∧ (∀ i,
        lruScan (runOps (initBufferPool fh cap strat) ops).frames
            (runOps (initBufferPool fh cap strat) ops).lru = some i →
        ((runOps (initBufferPool fh cap strat) ops).frames.getD i default).pinCount = 0) := by
  refine ⟨?_, ?_, ?_⟩
  · intro op i hp
    exact pinned_pageId_step _ op i
      (emptyUnpinned_runOps ops _ (emptyUnpinned_init fh cap strat)) hp
  · intro i rest hscan
    exact fifoScan_some _ _ _ _ hscan
  · intro i hscan
    exact lruScan_some _ _ _ hscan

theorem pin_safety_witness :
    0 < ((runOps (initBufferPool fhA 1 ReplacementStrategy.RS_FIFO)
          [Op.pin 0]).frames.getD 0 default).pinCount
    ∧ ((stepOp (runOps (initBufferPool fhA 1 ReplacementStrategy.RS_FIFO) [Op.pin 0])
          (Op.pin 1)).2.frames.getD 0 default).pageId
      = ((runOps (initBufferPool fhA 1 ReplacementStrategy.RS_FIFO)
          [Op.pin 0]).frames.getD 0 default).pageId :=
  ⟨by decide,
   (pin_safety fhA 1 ReplacementStrategy.RS_FIFO [Op.pin 0]).1 (Op.pin 1) 0 (by decide)⟩

end CS525

namespace CS525

/-- countP is unchanged by overwriting a slot with a frame the predicate
rates the same. -/
theorem countP_set_congr (q : Frame → Bool) (l : List Frame) (i : Nat) (a : Frame)
    (hq : q a = q (l.getD i default)) :
    (l.set i a).countP q = l.countP q := by
  by_cases hlen : i < l.length
  · have h := countP_set q l i a hlen
    rw [hq] at h
    omega
  · rw [List.set_eq_of_length_le (not_lt.1 hlen)]

/-- countP agrees on pointwise equal predicates. -/
theorem countP_congr_frames (p q : Frame → Bool) (l : List Frame)
    (h : ∀ f ∈ l, p f = q f) : l.countP p = l.countP q := by
  induction l with
  | nil => rfl
  | cons f rest ih =>
    rw [List.countP_cons, List.countP_cons, h f (List.mem_cons_self f rest),
        ih (fun g hg => h g (List.mem_cons.2 (Or.inr hg)))]

/-- Overwriting a slot with a frame of the same page id leaves the page-id
image of the frame table unchanged. -/
theorem map_pageId_set_same (l : List Frame) (i : Nat) (a : Frame)
    (ha : a.pageId = (l.getD i default).pageId) :
    (l.set i a).map (fun f => f.pageId) = l.map (fun f => f.pageId) := by
  induction l generalizing i with
  | nil => rfl
  | cons x xs ih =>
    cases i with
    | zero =>
      rw [List.set_cons_zero, List.map_cons, List.map_cons]
      rw [List.getD_cons_zero] at ha
      rw [ha]
    | succ n =>
      rw [List.set_cons_succ, List.map_cons, List.map_cons]
      rw [List.getD_cons_succ] at ha
      rw [ih n ha]

/-- The hit path of pinPage: the resident frame's pin count is bumped and
nothing else in the frame table changes. -/
theorem pinPage_hit (md : PoolMetadata) (pid : Int) (i : Nat)
    (h0 : 0 ≤ pid)
    (hfind : findFrameIdx (fun f => f.pageId == pid) md.frames = some i) :
    (pinPage md pid).2.frames = md.frames.set i
      { md.frames.getD i default with
          pinCount := (md.frames.getD i default).pinCount + 1 } := by
  rw [pinPage, if_neg (not_lt.2 h0), hfind]
  by_cases hs : md.strat = ReplacementStrategy.RS_LRU ∨
      md.strat = ReplacementStrategy.RS_LRU_K <;>
    simp [hs]

/-- Residency uniqueness: each non-empty page id occupies at most one frame. -/
def UniqueResidency (md : PoolMetadata) : Prop :=
  ∀ p : Int, p ≠ NO_PAGE → md.frames.countP (fun f => f.pageId == p) ≤ 1

/-- Every buffer-pool operation preserves residency uniqueness. -/
theorem uniqueResidency_step (md : PoolMetadata) (op : Op)
    (h : UniqueResidency md) : UniqueResidency (stepOp md op).2 := by
  cases op with
  | pin pid =>
    show UniqueResidency (pinPage md pid).2
    rcases pinPage_frames_cases md pid with heq | ⟨_, j, hfind, heq⟩ | ⟨_, hmiss, s, _, d, heq⟩
    · intro p hp
      rw [heq]
      exact h p hp
    · intro p hp
      rw [heq, countP_set_congr]
      · exact h p hp
      · rfl
    · intro p hp
      rw [heq]
      have hnone : ∀ f ∈ md.frames, (f.pageId == pid) = false :=
        (findFrameIdx_none _ _).1 hmiss
      by_cases hlen : s < md.frames.length
      · have hcs := countP_set (fun f => f.pageId == p) md.frames s
          { pageId := pid, data := d, isDirty := false, pinCount := 1 } hlen
        by_cases hppid : p = pid
        · subst hppid
          have hzero : md.frames.countP (fun f => f.pageId == p) = 0 :=
            List.countP_eq_zero.2 (fun f hf => by simp [hnone f hf])
          have hold : ((fun f => f.pageId == p) (md.frames.getD s default)) = false :=
            hnone _ (getD_mem _ _ _ hlen)
          rw [hzero, hold] at hcs
          simp at hcs
          omega
        · have hle := h p hp
          have hnew : ((fun (f : Frame) => f.pageId == p)
              { pageId := pid, data := d, isDirty := false, pinCount := 1 } : Bool) = false := by
            simp
            exact fun he => hppid he.symm
          rw [hnew] at hcs
          cases hold : ((fun (f : Frame) => f.pageId == p) (md.frames.getD s default) : Bool) with
          | false =>
            rw [hold] at hcs
            simp at hcs
            omega
          | true =>
            rw [hold] at hcs
            simp at hcs
            omega
      · rw [List.set_eq_of_length_le (not_lt.1 hlen)]
        exact h p hp
  | unpin p =>
    show UniqueResidency (unpinPage md p).2
    rcases unpinPage_frames_cases md p with heq | ⟨j, _, heq⟩
    · intro q hq
      rw [heq]
      exact h q hq
    · intro q hq
      rw [heq, countP_set_congr]
      · exact h q hq
      · rfl
  | markDirtyOp p =>
    show UniqueResidency (markDirty md p).2
    rcases markDirty_frames_cases md p with heq | ⟨j, _, heq⟩
    · intro q hq
      rw [heq]
      exact h q hq
    · intro q hq
      rw [heq, countP_set_congr]
      · exact h q hq
      · rfl
  | forcePageOp p =>
    show UniqueResidency (forcePage md p).2
    rcases forcePage_frames_cases md p with heq | ⟨j, _, heq⟩
    · intro q hq
      rw [heq]
      exact h q hq
    · intro q hq
      rw [heq, countP_set_congr]
      · exact h q hq
      · rfl
  | forceFlushOp =>
    show UniqueResidency (forceFlushPool md).2
    intro q hq
    rw [forceFlushPool_frames md, List.countP_map]
    rw [countP_congr_frames _ (fun f => f.pageId == q) md.frames
      (fun f _ => by simp [Function.comp, flushOne_pageId])]
    exact h q hq

/-- A fresh pool has no resident pages at all. -/
theorem uniqueResidency_init (fh : SMFileHandle) (cap : Nat)
    (strat : ReplacementStrategy) : UniqueResidency (initBufferPool fh cap strat) := by
  intro p hp
  have : (initBufferPool fh cap strat).frames.countP (fun f => f.pageId == p) = 0 := by
    refine List.countP_eq_zero.2 (fun f hf => ?_)
    have := List.eq_of_mem_replicate hf
    rw [this]
    simp
    exact fun he => hp he.symm
  omega

/-- Residency uniqueness holds after any operation sequence from init. -/
theorem uniqueResidency_runOps (ops : List Op) (md : PoolMetadata)
    (h : UniqueResidency md) : UniqueResidency (runOps md ops) := by
  induction ops generalizing md with
  | nil => exact h
  | cons op rest ih => exact ih _ (uniqueResidency_step md op h)

end CS525

namespace CS525

/-- C6 (residency uniqueness): in any pool reached from init, every page id
other than NO_PAGE is held by at most one frame; and a pin that hits bumps
the resident frame's pin count without loading the page into a second frame
(the page-id image of the frame table is unchanged). -/
theorem residency_unique (fh : SMFileHandle) (cap : Nat)
    (strat : ReplacementStrategy) (ops : List Op) (p : Int) (hp : p ≠ NO_PAGE) :
    (runOps (initBufferPool fh cap strat) ops).frames.countP
        (fun f => f.pageId == p) ≤ 1
    ∧ (∀ pid i, 0 ≤ pid →
        findFrameIdx (fun f => f.pageId == pid)
            (runOps (initBufferPool fh cap strat) ops).frames = some i →
        (pinPage (runOps (initBufferPool fh cap strat) ops) pid).2.frames.map
            (fun f => f.pageId)
          = (runOps (initBufferPool fh cap strat) ops).frames.map (fun f => f.pageId)
        ∧ ((pinPage (runOps (initBufferPool fh cap strat) ops) pid).2.frames.getD i
              default).pinCount
          = ((runOps (initBufferPool fh cap strat) ops).frames.getD i
              default).pinCount + 1) := by
  constructor
  · exact uniqueResidency_runOps ops _ (uniqueResidency_init fh cap strat) p hp
  · intro pid i h0 hfind
    have hhit := pinPage_hit _ pid i h0 hfind
    have hlen := (findFrameIdx_some _ _ _ hfind).1
    constructor
    · rw [hhit]
      exact map_pageId_set_same _ i _ rfl
    · rw [hhit, getD_set_self _ _ _ _ hlen]

theorem residency_unique_witness :
    ((0 : Int) ≠ NO_PAGE
      ∧ (runOps (initBufferPool fhA 2 ReplacementStrategy.RS_FIFO)
          [Op.pin 0]).frames.countP (fun f => f.pageId == (0 : Int)) ≤ 1)
    ∧ ((0 : Int) ≤ 0
      ∧ findFrameIdx (fun f => f.pageId == (0 : Int))
          (runOps (initBufferPool fhA 2 ReplacementStrategy.RS_FIFO)
            [Op.pin 0]).frames = some 0
      ∧ ((pinPage (runOps (initBufferPool fhA 2 ReplacementStrategy.RS_FIFO)
            [Op.pin 0]) 0).2.frames.getD 0 default).pinCount
        = ((runOps (initBufferPool fhA 2 ReplacementStrategy.RS_FIFO)
            [Op.pin 0]).frames.getD 0 default).pinCount + 1) :=
  ⟨⟨by decide,
    (residency_unique fhA 2 ReplacementStrategy.RS_FIFO [Op.pin 0] 0 (by decide)).1⟩,
   by decide, by decide,
   ((residency_unique fhA 2 ReplacementStrategy.RS_FIFO [Op.pin 0] 0
      (by decide)).2 0 0 (by decide) (by decide)).2⟩

end CS525

namespace CS525

/-- Replace only the stored strategy of a pool. -/
def setStrat (s : ReplacementStrategy) (md : PoolMetadata) : PoolMetadata :=
  { md with strat := s }

/-- Victim selection never alters the stored strategy. -/
theorem selectVictim_strat (md : PoolMetadata) (r : Option Nat) (md1 : PoolMetadata)
    (h : selectVictim md = (r, md1)) : md1.strat = md.strat := by
  by_cases hs : md.strat = ReplacementStrategy.RS_FIFO
  · rw [selectVictim, if_pos hs] at h
    cases hscan : fifoScan md.frames md.fifoQ with
    | mk res q =>
      rw [hscan] at h
      have h2 : md1 = { md with fifoQ := q } := (congrArg Prod.snd h).symm
      rw [h2]
  · rw [selectVictim, if_neg hs] at h
    have h2 : md1 = md := (congrArg Prod.snd h).symm
    rw [h2]

/-- An if-then-else of pools whose branches share a strategy has it. -/
theorem ite_strat_eq (c : Prop) [Decidable c] (A B : PoolMetadata)
    (s : ReplacementStrategy) (hA : A.strat = s) (hB : B.strat = s) :
    (if c then A else B).strat = s := by
  split
  · exact hA
  · exact hB

/-- The same, for a result pair carrying a pool. -/
theorem ite_pair_strat (c : Prop) [Decidable c] (A B : RC × PoolMetadata)
    (s : ReplacementStrategy) (hA : A.2.strat = s) (hB : B.2.strat = s) :
    (if c then A else B).2.strat = s := by
  split
  · exact hA
  · exact hB

/-- loadIntoSlot never alters the stored strategy. -/
theorem loadIntoSlot_strat (md : PoolMetadata) (slot : Nat) (pid : Int) :
    (loadIntoSlot md slot pid).2.strat = md.strat := by
  rw [loadIntoSlot]
  split <;> split <;> rfl

/-- pinPage never alters the stored strategy. -/
theorem pinPage_strat (md : PoolMetadata) (pid : Int) :
    (pinPage md pid).2.strat = md.strat := by
  rw [pinPage]
  split
  · rfl
  · split
    · exact ite_strat_eq _ _ _ _ rfl rfl
    · split
      · exact loadIntoSlot_strat md _ pid
      · split
        · next md1 heq =>
          exact selectVictim_strat md _ _ heq
        · next v md1 heq =>
          have h1 : md1.strat = md.strat := selectVictim_strat md _ _ heq
          exact (loadIntoSlot_strat _ v pid).trans (ite_strat_eq _ _ _ _ h1 h1)

/-- unpinPage never alters the stored strategy. -/
theorem unpinPage_strat (md : PoolMetadata) (p : Int) :
    (unpinPage md p).2.strat = md.strat := by
  rw [unpinPage]
  split
  · exact ite_pair_strat _ _ _ _ rfl rfl
  · rfl

/-- markDirty never alters the stored strategy. -/
theorem markDirty_strat (md : PoolMetadata) (p : Int) :
    (markDirty md p).2.strat = md.strat := by
  rw [markDirty]
  split <;> rfl

/-- forcePage never alters the stored strategy. -/
theorem forcePage_strat (md : PoolMetadata) (p : Int) :
    (forcePage md p).2.strat = md.strat := by
  rw [forcePage]
  split <;> rfl

/-- forceFlushPool never alters the stored strategy. -/
theorem forceFlushPool_strat (md : PoolMetadata) :
    (forceFlushPool md).2.strat = md.strat := rfl

/-- No operation alters the stored strategy. -/
theorem stepOp_strat (md : PoolMetadata) (op : Op) :
    (stepOp md op).2.strat = md.strat := by
  cases op with
  | pin pid => exact pinPage_strat md pid
  | unpin p => exact unpinPage_strat md p
  | markDirtyOp p => exact markDirty_strat md p
  | forcePageOp p => exact forcePage_strat md p
  | forceFlushOp => exact forceFlushPool_strat md

end CS525

namespace CS525

/-- unpinPage is oblivious to the stored strategy. -/
theorem unpinPage_setStrat (s : ReplacementStrategy) (md : PoolMetadata) (p : Int) :
    unpinPage (setStrat s md) p
      = ((unpinPage md p).1, setStrat s (unpinPage md p).2) := by
  obtain ⟨fh, frames, cap, st, rio, wio, q, lru⟩ := md
  cases hf : findFrameIdx (fun f => f.pageId == p) frames with
  | none => simp [unpinPage, setStrat, hf]
  | some i =>
    by_cases hp : 0 < (frames.getD i default).pinCount <;>
      simp [unpinPage, setStrat, hf, hp, -List.getD_eq_getElem?_getD]

/-- markDirty is oblivious to the stored strategy. -/
theorem markDirty_setStrat (s : ReplacementStrategy) (md : PoolMetadata) (p : Int) :
    markDirty (setStrat s md) p
      = ((markDirty md p).1, setStrat s (markDirty md p).2) := by
  obtain ⟨fh, frames, cap, st, rio, wio, q, lru⟩ := md
  cases hf : findFrameIdx (fun f => f.pageId == p) frames with
  | none => simp [markDirty, setStrat, hf]
  | some i => simp [markDirty, setStrat, hf]

/-- forcePage is oblivious to the stored strategy. -/
theorem forcePage_setStrat (s : ReplacementStrategy) (md : PoolMetadata) (p : Int) :
    forcePage (setStrat s md) p
      = ((forcePage md p).1, setStrat s (forcePage md p).2) := by
  obtain ⟨fh, frames, cap, st, rio, wio, q, lru⟩ := md
  cases hf : findFrameIdx (fun f => f.pageId == p) frames with
  | none => simp [forcePage, setStrat, hf]
  | some i => simp [forcePage, setStrat, hf]

/-- forceFlushPool is oblivious to the stored strategy. -/
theorem forceFlushPool_setStrat (s : ReplacementStrategy) (md : PoolMetadata) :
    forceFlushPool (setStrat s md)
      = ((forceFlushPool md).1, setStrat s (forceFlushPool md).2) := by
  obtain ⟨fh, frames, cap, st, rio, wio, q, lru⟩ := md
  rfl

/-- pinPage treats RS_LRU_K exactly as RS_LRU: on a pool whose stored
strategy is RS_LRU, retagging it RS_LRU_K changes nothing but the tag. -/
theorem pinPage_setStrat_lruk (md : PoolMetadata) (pid : Int)
    (h : md.strat = ReplacementStrategy.RS_LRU) :
    pinPage (setStrat ReplacementStrategy.RS_LRU_K md) pid
      = ((pinPage md pid).1, setStrat ReplacementStrategy.RS_LRU_K (pinPage md pid).2) := by
  obtain ⟨fh, frames, cap, st, rio, wio, q, lru⟩ := md
  have h2 : st = ReplacementStrategy.RS_LRU := h
  subst h2
  by_cases h0 : pid < 0
  · simp [pinPage, setStrat, h0]
  · cases hhit : findFrameIdx (fun f => f.pageId == pid) frames with
    | some i =>
      simp [pinPage, setStrat, h0, hhit]
    | none =>
      cases hfree : findFrameIdx (fun f => f.pageId == NO_PAGE) frames with
      | some fr =>
        by_cases hg : pid ≥ (fh.totalNumPages : Int) <;>
          simp [pinPage, setStrat, h0, hhit, hfree, loadIntoSlot, enqueueFIFO, hg,
            -List.getD_eq_getElem?_getD]
      | none =>
        cases hv : lruScan frames lru with
        | none =>
          simp [pinPage, setStrat, selectVictim, h0, hhit, hfree, hv]
        | some v =>
          cases hdirty : (frames.getD v default).isDirty with
          | false =>
            by_cases hg : pid ≥ (fh.totalNumPages : Int) <;>
              simp [pinPage, setStrat, selectVictim, loadIntoSlot, enqueueFIFO,
                h0, hhit, hfree, hv, hdirty, hg, -List.getD_eq_getElem?_getD]
          | true =>
            by_cases hg : pid ≥
                (((writeBlock (frames.getD v default).pageId fh
                    (frames.getD v default).data).2).totalNumPages : Int) <;>
              simp [pinPage, setStrat, selectVictim, loadIntoSlot, enqueueFIFO,
                h0, hhit, hfree, hv, hdirty, hg, -List.getD_eq_getElem?_getD]

/-- One operation on an RS_LRU_K-tagged pool equals the same operation on the
RS_LRU-tagged pool, up to the tag. -/
theorem stepOp_setStrat_lruk (md : PoolMetadata) (op : Op)
    (h : md.strat = ReplacementStrategy.RS_LRU) :
    stepOp (setStrat ReplacementStrategy.RS_LRU_K md) op
      = ((stepOp md op).1, setStrat ReplacementStrategy.RS_LRU_K (stepOp md op).2) := by
  cases op with
  | pin pid => exact pinPage_setStrat_lruk md pid h
  | unpin p => exact unpinPage_setStrat _ md p
  | markDirtyOp p => exact markDirty_setStrat _ md p
  | forcePageOp p => exact forcePage_setStrat _ md p
  | forceFlushOp => exact forceFlushPool_setStrat _ md

/-- Running any operation sequence on an RS_LRU_K-tagged pool yields the same
return codes and the same final pool (up to the tag) as on RS_LRU. -/
theorem runTrace_setStrat_lruk (ops : List Op) (md : PoolMetadata)
    (h : md.strat = ReplacementStrategy.RS_LRU) :
    runTrace (setStrat ReplacementStrategy.RS_LRU_K md) ops
      = ((runTrace md ops).1,
         setStrat ReplacementStrategy.RS_LRU_K (runTrace md ops).2) := by
  induction ops generalizing md with
  | nil => rfl
  | cons op rest ih =>
    show (let r := stepOp (setStrat ReplacementStrategy.RS_LRU_K md) op
          let t := runTrace r.2 rest
          (r.1 :: t.1, t.2)) = _
    rw [stepOp_setStrat_lruk md op h]
    have hstrat : (stepOp md op).2.strat = ReplacementStrategy.RS_LRU := by
      rw [stepOp_strat md op, h]
    show ((stepOp md op).1
            :: (runTrace (setStrat ReplacementStrategy.RS_LRU_K (stepOp md op).2) rest).1,
          (runTrace (setStrat ReplacementStrategy.RS_LRU_K (stepOp md op).2) rest).2) = _
    rw [ih (stepOp md op).2 hstrat]
    rfl

/-- C10: a pool initialized with RS_LRU_K behaves identically to one
initialized with RS_LRU over every operation sequence: every operation
returns the same code, and the final frame table (contents, dirty flags, pin
counts), counters and file agree; the states differ only in the stored tag. -/
theorem lruk_behaves_as_lru (fh : SMFileHandle) (cap : Nat) (ops : List Op) :
    (runTrace (initBufferPool fh cap ReplacementStrategy.RS_LRU_K) ops).1
      = (runTrace (initBufferPool fh cap ReplacementStrategy.RS_LRU) ops).1
    ∧ (runTrace (initBufferPool fh cap ReplacementStrategy.RS_LRU_K) ops).2
      = setStrat ReplacementStrategy.RS_LRU_K
          (runTrace (initBufferPool fh cap ReplacementStrategy.RS_LRU) ops).2
    ∧ (runTrace (initBufferPool fh cap ReplacementStrategy.RS_LRU_K) ops).2.frames
      = (runTrace (initBufferPool fh cap ReplacementStrategy.RS_LRU) ops).2.frames
    ∧ (runTrace (initBufferPool fh cap ReplacementStrategy.RS_LRU_K) ops).2.readIOCount
      = (runTrace (initBufferPool fh cap ReplacementStrategy.RS_LRU) ops).2.readIOCount
    ∧ (runTrace (initBufferPool fh cap ReplacementStrategy.RS_LRU_K) ops).2.writeIOCount
      = (runTrace (initBufferPool fh cap ReplacementStrategy.RS_LRU) ops).2.writeIOCount
    ∧ (runTrace (initBufferPool fh cap ReplacementStrategy.RS_LRU_K) ops).2.fh
      = (runTrace (initBufferPool fh cap ReplacementStrategy.RS_LRU) ops).2.fh := by
  have hinit : initBufferPool fh cap ReplacementStrategy.RS_LRU_K
      = setStrat ReplacementStrategy.RS_LRU_K
          (initBufferPool fh cap ReplacementStrategy.RS_LRU) := rfl
  have hmain := runTrace_setStrat_lruk ops
      (initBufferPool fh cap ReplacementStrategy.RS_LRU) rfl
  rw [hinit, hmain]
  exact ⟨rfl, rfl, rfl, rfl, rfl, rfl⟩

end CS525
